import Mathlib

/-
Shallow embedding of src/webrtc.jsx (the VideoCall component).

The component's mutable refs become fields of an explicit state record:
  pcRef            : the current RTCPeerConnection reference (by id)
  localStreamRef   : the current local MediaStream reference
  localVideoRef.srcObject / remoteVideoRef.srcObject : preview bindings
MediaStreamTrack objects live in an id-indexed store so that aliasing
(the same track referenced by the local stream and by a sender) is
modelled faithfully: mutating `enabled` or `stopped` through one
reference is visible through the other.  RTCPeerConnection objects live
in an id-indexed store as well, so that a connection that is replaced
without being closed remains observable (its `closed` flag stays false).
`navigator.mediaDevices.getUserMedia` / `getDisplayMedia` are modelled as
always-succeeding acquisitions of fresh tracks (fresh ids drawn from a
counter).  `socket.emit` appends to an outbound message log.
-/

namespace WebRTC

inductive Kind where
  | audio
  | video
deriving DecidableEq

inductive Source where
  | camera
  | screen
deriving DecidableEq

inductive ConnState where
  | new
  | connecting
  | connected
  | disconnected
  | failed
  | closed
deriving DecidableEq

/-- A MediaStreamTrack's mutable data: its kind, its `enabled` flag
(toggled by mute), whether `stop()` has been called on it, and which
device it came from. -/
structure TrackData where
  kind : Kind
  enabled : Bool
  stopped : Bool
  source : Source
deriving DecidableEq

/-- A MediaStream: an identity and the ids of the tracks it holds. -/
structure Stream where
  sid : Nat
  trackIds : List Nat
deriving DecidableEq

/-- A session description; `sid` is its identity, `iceRestart` records
whether it was created with the iceRestart option. -/
structure SDP where
  sid : Nat
  iceRestart : Bool
deriving DecidableEq

/-- Outbound signaling messages sent through `socket.emit`. -/
inductive Msg where
  | offer (o : SDP)
  | answer (a : SDP)
  | iceCandidate (c : Nat)
  | reconnectOffer (o : SDP)
  | reconnectAnswer (a : SDP)
  | callEnded
deriving DecidableEq

/-- An RTCPeerConnection: its senders hold track ids (one sender per
added/replaced track), `closed` records whether `close()` was called. -/
structure PC where
  id : Nat
  senders : List Nat
  closed : Bool
  localDesc : Option SDP
  remoteDesc : Option SDP
  candidates : List Nat
deriving DecidableEq

/-- The whole mutable state of the VideoCall component plus the
outbound message log and the fresh-id counter. -/
structure AppState where
  nextId : Nat
  tracks : List (Nat × TrackData)
  pcs : List PC
  pcRef : Option Nat
  localStreamRef : Option Stream
  localVideoSrc : Option Nat
  remoteVideoSrc : Option Nat
  emitted : List Msg
deriving DecidableEq

/-- Look a track up in the track store by id. -/
def lookupTrack (tid : Nat) : List (Nat × TrackData) → Option TrackData
  | [] => none
  | p :: r => if p.1 = tid then some p.2 else lookupTrack tid r

/-- Look a peer connection up in the store by id. -/
def lookupPc (i : Nat) : List PC → Option PC
  | [] => none
  | pc :: r => if pc.id = i then some pc else lookupPc i r

/-- Mutate the track with the given id in place. -/
def setTrack (tid : Nat) (f : TrackData → TrackData)
    (l : List (Nat × TrackData)) : List (Nat × TrackData) :=
  l.map (fun p => if p.1 = tid then (p.1, f p.2) else p)

/-- `stream.getTracks().forEach((t) => t.stop())`: mark every track of
the given ids as stopped. -/
def stopTracks (tids : List Nat) (l : List (Nat × TrackData)) :
    List (Nat × TrackData) :=
  l.map (fun p => if p.1 ∈ tids then (p.1, { p.2 with stopped := true }) else p)

/-- Mutate the peer connection with the given id in place. -/
def setPc (i : Nat) (f : PC → PC) (l : List PC) : List PC :=
  l.map (fun pc => if pc.id = i then f pc else pc)

/-- `s.track?.kind === "video"` for a sender holding track id `tid`. -/
def isVideoTrack (tracks : List (Nat × TrackData)) (tid : Nat) : Bool :=
  ((lookupTrack tid tracks).map (fun td => decide (td.kind = Kind.video))).getD false

/-- `stream.getAudioTracks()[0]` / `getVideoTracks()[0]`: the first
track id of the stream whose stored kind matches. -/
def firstTrackOfKind (tracks : List (Nat × TrackData)) (k : Kind)
    (tids : List Nat) : Option Nat :=
  tids.find? (fun tid =>
    ((lookupTrack tid tracks).map (fun td => decide (td.kind = k))).getD false)

/-- `sender.replaceTrack(y)` on the first sender satisfying `p`
(`getSenders().find(p)`); a no-op when no sender matches. -/
def replaceFirst (p : Nat → Bool) (y : Nat) : List Nat → List Nat
  | [] => []
  | x :: xs => if p x then y :: xs else x :: replaceFirst p y xs

/-- `socket.emit(m)`. -/
def emitMsg (m : Msg) (s : AppState) : AppState :=
  { s with emitted := s.emitted ++ [m] }

/-- The stream `getUserMedia({video:true, audio:true})` returns when the
counter is at `n`: an audio track `n`, a video track `n+1`, stream id
`n+2`. -/
def camStreamOf (n : Nat) : Stream :=
  ⟨n + 2, [n, n + 1]⟩

/-- A freshly acquired camera audio track's data. -/
def camAudioTD : TrackData :=
  ⟨Kind.audio, true, false, Source.camera⟩

/-- A freshly acquired camera video track's data. -/
def camVideoTD : TrackData :=
  ⟨Kind.video, true, false, Source.camera⟩

/-- A freshly acquired screen video track's data. -/
def screenTD : TrackData :=
  ⟨Kind.video, true, false, Source.screen⟩

/-- `navigator.mediaDevices.getUserMedia({video:true, audio:true})`:
adds a fresh camera audio track and a fresh camera video track to the
store (the returned stream is `camStreamOf s.nextId`). -/
def getUserMedia (s : AppState) : AppState :=
  { s with
    tracks := s.tracks ++ [(s.nextId, camAudioTD), (s.nextId + 1, camVideoTD)],
    nextId := s.nextId + 3 }

/-- The stream `getDisplayMedia({video:true})` returns when the counter
is at `n`: a video track `n`, stream id `n+1`. -/
def scrStreamOf (n : Nat) : Stream :=
  ⟨n + 1, [n]⟩

/-- `navigator.mediaDevices.getDisplayMedia({video:true})`: adds a
fresh screen video track to the store. -/
def getDisplayMedia (s : AppState) : AppState :=
  { s with
    tracks := s.tracks ++ [(s.nextId, screenTD)],
    nextId := s.nextId + 2 }

/-- `startCamera`: a no-op when a local stream is already held,
otherwise acquires camera+mic and binds the local preview. -/
def startCamera (s : AppState) : AppState :=
  match s.localStreamRef with
  | some _ => s
  | none =>
    { getUserMedia s with
      localStreamRef := some (camStreamOf s.nextId),
      localVideoSrc := some (s.nextId + 2) }

/-- The track ids added by `localStreamRef.current?.getTracks()`. -/
def streamTrackIds (s : AppState) : List Nat :=
  match s.localStreamRef with
  | some st => st.trackIds
  | none => []

/-- `createPeerConnection`: builds a fresh RTCPeerConnection, adds every
track of the current local stream, and stores it in `pcRef`.  The
previous connection, if any, is NOT closed — only the reference is
overwritten. -/
def createPeerConnection (s : AppState) : AppState :=
  { s with
    pcs := s.pcs ++ [⟨s.nextId, streamTrackIds s, false, none, none, []⟩],
    pcRef := some s.nextId,
    nextId := s.nextId + 1 }

/-- `pcRef.current?.close()`: marks the referenced connection closed. -/
def closeCurrent (s : AppState) : AppState :=
  match s.pcRef with
  | none => s
  | some i =>
    { s with pcs := s.pcs.map (fun pc =>
        if pc.id = i then { pc with closed := true } else pc) }

/-- `pc.setLocalDescription(d)` on the currently referenced connection. -/
def setLocalDescCur (d : SDP) (s : AppState) : AppState :=
  match s.pcRef with
  | none => s
  | some i => { s with pcs := setPc i (fun pc => { pc with localDesc := some d }) s.pcs }

/-- `pc.setRemoteDescription(d)` on the currently referenced connection
(`pcRef.current?.setRemoteDescription(d)`). -/
def setRemoteDescCur (d : SDP) (s : AppState) : AppState :=
  match s.pcRef with
  | none => s
  | some i => { s with pcs := setPc i (fun pc => { pc with remoteDesc := some d }) s.pcs }

/-- The description `createOffer` / `createAnswer` produces when the
counter is at `s.nextId`. -/
def sdpOf (s : AppState) (restart : Bool) : SDP :=
  ⟨s.nextId, restart⟩

/-- Consume one fresh id (for a created description). -/
def bumpId (s : AppState) : AppState :=
  { s with nextId := s.nextId + 1 }

/-- `startCall`: startCamera; createPeerConnection; createOffer;
setLocalDescription; emit "offer". -/
def startCall (s : AppState) : AppState :=
  let s1 := startCamera s
  let s2 := createPeerConnection s1
  let o := sdpOf s2 false
  let s3 := bumpId s2
  let s4 := setLocalDescCur o s3
  emitMsg (Msg.offer o) s4

/-- `toggleAudio`: flip the `enabled` flag of the first audio track of
the held local stream, if any. -/
def toggleAudio (s : AppState) : AppState :=
  match s.localStreamRef with
  | none => s
  | some st =>
    match firstTrackOfKind s.tracks Kind.audio st.trackIds with
    | none => s
    | some tid => { s with tracks := setTrack tid (fun td => { td with enabled := !td.enabled }) s.tracks }

/-- `toggleVideo`: flip the `enabled` flag of the first video track of
the held local stream, if any. -/
def toggleVideo (s : AppState) : AppState :=
  match s.localStreamRef with
  | none => s
  | some st =>
    match firstTrackOfKind s.tracks Kind.video st.trackIds with
    | none => s
    | some tid => { s with tracks := setTrack tid (fun td => { td with enabled := !td.enabled }) s.tracks }

/-- `startScreenShare`: getDisplayMedia; replace the track of the first
video sender with the screen track; preview := screen stream.  The
screen track's `onended` handler (stopScreenShare) is delivered as the
`screenEnded` event below.  The camera track is only detached, and the
previous connection/stream state is otherwise untouched. -/
def startScreenShare (s : AppState) : AppState :=
  let s1 := getDisplayMedia s
  let scrTid := s.nextId
  let s2 :=
    match s1.pcRef with
    | some i =>
      { s1 with pcs := setPc i (fun pc =>
          { pc with senders := replaceFirst (isVideoTrack s1.tracks) scrTid pc.senders }) s1.pcs }
    | none => s1
  { s2 with localVideoSrc := some (scrStreamOf s.nextId).sid }

/-- `stopScreenShare`: getUserMedia (fresh camera); replace the track of
the first video sender with the fresh camera video track;
localStreamRef := camera stream; preview := camera stream.  Note: the
screen track is never stopped here, and the old camera stream's tracks
are not stopped either — only the references are overwritten. -/
def stopScreenShare (s : AppState) : AppState :=
  let s1 := getUserMedia s
  let camTid := s.nextId + 1
  let s2 :=
    match s1.pcRef with
    | some i =>
      { s1 with pcs := setPc i (fun pc =>
          { pc with senders := replaceFirst (isVideoTrack s1.tracks) camTid pc.senders }) s1.pcs }
    | none => s1
  { s2 with
    localStreamRef := some (camStreamOf s.nextId),
    localVideoSrc := some (s.nextId + 2) }

/-- `endCall`: stop every track of the held stream; close the referenced
connection; null both refs; clear both video bindings; emit
"call-ended". -/
def endCall (s : AppState) : AppState :=
  let s1 :=
    match s.localStreamRef with
    | some st => { s with tracks := stopTracks st.trackIds s.tracks }
    | none => s
  let s2 := closeCurrent s1
  let s3 := { s2 with
    pcRef := none,
    localStreamRef := none,
    localVideoSrc := none,
    remoteVideoSrc := none }
  emitMsg Msg.callEnded s3

/-- `reconnectCall`: early return when no local stream is held;
otherwise close the current connection, null the ref, create a fresh
connection, createOffer({iceRestart:true}), setLocalDescription, emit
"reconnect-offer". -/
def reconnectCall (s : AppState) : AppState :=
  match s.localStreamRef with
  | none => s
  | some _ =>
    let s1 := { closeCurrent s with pcRef := none }
    let s2 := createPeerConnection s1
    let o := sdpOf s2 true
    let s3 := bumpId s2
    let s4 := setLocalDescCur o s3
    emitMsg (Msg.reconnectOffer o) s4

/-- `pc.onconnectionstatechange`: on "disconnected" or "failed" run
`reconnectCall()`, otherwise do nothing. -/
def onConnectionStateChange (st : ConnState) (s : AppState) : AppState :=
  match st with
  | ConnState.disconnected => reconnectCall s
  | ConnState.failed => reconnectCall s
  | _ => s

/-- `socket.on("offer")`: startCamera; createPeerConnection;
setRemoteDescription; createAnswer; setLocalDescription; emit
"answer".  The previous connection, if any, is not closed. -/
def onOffer (o : SDP) (s : AppState) : AppState :=
  let s1 := startCamera s
  let s2 := createPeerConnection s1
  let s3 := setRemoteDescCur o s2
  let a := sdpOf s3 false
  let s4 := bumpId s3
  let s5 := setLocalDescCur a s4
  emitMsg (Msg.answer a) s5

/-- `socket.on("answer")`: `pcRef.current?.setRemoteDescription(answer)`. -/
def onAnswer (a : SDP) (s : AppState) : AppState :=
  setRemoteDescCur a s

/-- `socket.on("ice-candidate")`:
`pcRef.current?.addIceCandidate(candidate)` — forwarded when a
connection reference exists, silently dropped otherwise. -/
def onIceCandidate (c : Nat) (s : AppState) : AppState :=
  match s.pcRef with
  | none => s
  | some i => { s with pcs := setPc i (fun pc => { pc with candidates := pc.candidates ++ [c] }) s.pcs }

/-- `socket.on("reconnect-offer")`: close current connection, null the
ref, createPeerConnection, setRemoteDescription, createAnswer,
setLocalDescription, emit "reconnect-answer". -/
def onReconnectOffer (o : SDP) (s : AppState) : AppState :=
  let s1 := { closeCurrent s with pcRef := none }
  let s2 := createPeerConnection s1
  let s3 := setRemoteDescCur o s2
  let a := sdpOf s3 false
  let s4 := bumpId s3
  let s5 := setLocalDescCur a s4
  emitMsg (Msg.reconnectAnswer a) s5

/-- `socket.on("reconnect-answer")`:
`pcRef.current?.setRemoteDescription(answer)`. -/
def onReconnectAnswer (a : SDP) (s : AppState) : AppState :=
  setRemoteDescCur a s

/-- `socket.on("call-ended")`: close the referenced connection, null the
ref, clear the remote video binding.  Local tracks are not stopped and
no message is emitted. -/
def onCallEnded (s : AppState) : AppState :=
  { closeCurrent s with pcRef := none, remoteVideoSrc := none }

/-- `pc.onicecandidate` with a non-null candidate:
`socket.emit("ice-candidate", c)`. -/
def onEngineIceCandidate (c : Nat) (s : AppState) : AppState :=
  emitMsg (Msg.iceCandidate c) s

/-- `pc.ontrack`: bind the remote video surface to the event's stream. -/
def onEngineTrack (sid : Nat) (s : AppState) : AppState :=
  { s with remoteVideoSrc := some sid }

/-- The component's initial state: no refs, no tracks, nothing sent. -/
def initState : AppState :=
  ⟨0, [], [], none, none, none, none, []⟩

/-- One deliverable event: a local user operation, an inbound signaling
message, or a connection-engine callback. -/
inductive Ev where
  | userStartCall
  | userEndCall
  | userToggleAudio
  | userToggleVideo
  | userStartShare
  | userStopShare
  | screenEnded
  | msgOffer (o : SDP)
  | msgAnswer (a : SDP)
  | msgIce (c : Nat)
  | msgReconnectOffer (o : SDP)
  | msgReconnectAnswer (a : SDP)
  | msgCallEnded
  | engineConnState (st : ConnState)
  | engineIce (c : Nat)
  | engineTrack (sid : Nat)
deriving DecidableEq

/-- Dispatch one event to the corresponding handler. -/
def step (s : AppState) : Ev → AppState
  | Ev.userStartCall => startCall s
  | Ev.userEndCall => endCall s
  | Ev.userToggleAudio => toggleAudio s
  | Ev.userToggleVideo => toggleVideo s
  | Ev.userStartShare => startScreenShare s
  | Ev.userStopShare => stopScreenShare s
  | Ev.screenEnded => stopScreenShare s
  | Ev.msgOffer o => onOffer o s
  | Ev.msgAnswer a => onAnswer a s
  | Ev.msgIce c => onIceCandidate c s
  | Ev.msgReconnectOffer o => onReconnectOffer o s
  | Ev.msgReconnectAnswer a => onReconnectAnswer a s
  | Ev.msgCallEnded => onCallEnded s
  | Ev.engineConnState st => onConnectionStateChange st s
  | Ev.engineIce c => onEngineIceCandidate c s
  | Ev.engineTrack sid => onEngineTrack sid s

/-- The number of live (created and not closed) connection-engine
instances the state holds. -/
def liveCount (s : AppState) : Nat :=
  (s.pcs.filter (fun pc => !pc.closed)).length

/-- The session's engine ownership invariant: connection ids are
distinct and every live connection is the one currently referenced. -/
def wfEngines (s : AppState) : Prop :=
  (s.pcs.map PC.id).Nodup ∧ ∀ pc ∈ s.pcs, pc.closed = false → s.pcRef = some pc.id

/-- Senders of a connection currently carrying a video-kind track. -/
def videoSenders (tracks : List (Nat × TrackData)) (senders : List Nat) : List Nat :=
  senders.filter (isVideoTrack tracks)

def isReconnectOfferMsg : Msg → Bool
  | Msg.reconnectOffer _ => true
  | _ => false

def isReconnectAnswerMsg : Msg → Bool
  | Msg.reconnectAnswer _ => true
  | _ => false

def isAnswerMsg : Msg → Bool
  | Msg.answer _ => true
  | _ => false

/-- The track of the held local stream that a toggle targets:
`getAudioTracks()[0]` / `getVideoTracks()[0]` of `localStreamRef`. -/
def heldTrack (s : AppState) (k : Kind) : Option Nat :=
  match s.localStreamRef with
  | none => none
  | some st => firstTrackOfKind s.tracks k st.trackIds

lemma lookupTrack_setTrack (tid t0 : Nat) (f : TrackData → TrackData)
    (l : List (Nat × TrackData)) :
    lookupTrack tid (setTrack t0 f l) =
      (lookupTrack tid l).map (fun td => if tid = t0 then f td else td) := by
  induction l with
  | nil => rfl
  | cons p r ih =>
    obtain ⟨a, td⟩ := p
    by_cases h1 : a = t0 <;> by_cases h2 : a = tid <;>
      simp_all [setTrack, lookupTrack]

lemma lookupTrack_stopTracks (tid : Nat) (tids : List Nat)
    (l : List (Nat × TrackData)) :
    lookupTrack tid (stopTracks tids l) =
      (lookupTrack tid l).map
        (fun td => if tid ∈ tids then { td with stopped := true } else td) := by
  induction l with
  | nil => rfl
  | cons p r ih =>
    obtain ⟨a, td⟩ := p
    by_cases h1 : a ∈ tids <;> by_cases h2 : a = tid <;>
      simp_all [stopTracks, lookupTrack]

lemma lookupTrack_append_some (tid : Nat) (l l2 : List (Nat × TrackData))
    (td : TrackData) (h : lookupTrack tid l = some td) :
    lookupTrack tid (l ++ l2) = some td := by
  induction l with
  | nil => simp [lookupTrack] at h
  | cons p r ih =>
    by_cases hp : p.1 = tid <;> simp_all [lookupTrack]

lemma lookupTrack_append_none (tid : Nat) (l l2 : List (Nat × TrackData))
    (h : lookupTrack tid l = none) :
    lookupTrack tid (l ++ l2) = lookupTrack tid l2 := by
  induction l with
  | nil => rfl
  | cons p r ih =>
    by_cases hp : p.1 = tid <;> simp_all [lookupTrack]

lemma lookupTrack_none_of_lt (tid n : Nat) (l : List (Nat × TrackData))
    (hl : ∀ p ∈ l, p.1 < n) (h : n ≤ tid) :
    lookupTrack tid l = none := by
  induction l with
  | nil => rfl
  | cons p r ih =>
    have hp : p.1 < n := hl p (by simp)
    have : p.1 ≠ tid := by omega
    simp only [lookupTrack, if_neg this]
    exact ih (fun q hq => hl q (by simp [hq]))

lemma isVideoTrack_append (l l2 : List (Nat × TrackData)) (tid : Nat)
    (h : (lookupTrack tid l).isSome = true) :
    isVideoTrack (l ++ l2) tid = isVideoTrack l tid := by
  cases hl : lookupTrack tid l with
  | none => rw [hl] at h; simp at h
  | some td => rw [isVideoTrack, isVideoTrack, hl, lookupTrack_append_some tid l l2 td hl]

lemma lookupPc_setPc_self (i : Nat) (f : PC → PC) (l : List PC)
    (hf : ∀ pc, (f pc).id = pc.id) :
    lookupPc i (setPc i f l) = (lookupPc i l).map f := by
  induction l with
  | nil => rfl
  | cons pc r ih =>
    by_cases hp : pc.id = i
    · simp [setPc, lookupPc, hp, hf pc]
    · simp_all [setPc, lookupPc]

lemma replaceFirst_congr (p q : Nat → Bool) (y : Nat) (l : List Nat)
    (h : ∀ x ∈ l, p x = q x) :
    replaceFirst p y l = replaceFirst q y l := by
  induction l with
  | nil => rfl
  | cons x xs ih =>
    have hx : p x = q x := h x (by simp)
    by_cases hq : q x = true <;>
      simp_all [replaceFirst]

lemma filter_congr_mem (p q : Nat → Bool) (l : List Nat)
    (h : ∀ x ∈ l, p x = q x) :
    l.filter p = l.filter q := by
  induction l with
  | nil => rfl
  | cons x xs ih =>
    have hx : p x = q x := h x (by simp)
    by_cases hq : q x = true <;> simp_all [List.filter_cons]

lemma replaceFirst_filter (p : Nat → Bool) (y v : Nat) (l : List Nat)
    (hv : l.filter p = [v]) (hy : p y = true) :
    (replaceFirst p y l).filter p = [y] := by
  induction l with
  | nil => simp at hv
  | cons x xs ih =>
    by_cases hx : p x = true
    · rw [List.filter_cons_of_pos hx] at hv
      have hxs : xs.filter p = [] := by
        have h2 := hv
        simp only [List.cons.injEq] at h2
        exact h2.2
      simp [replaceFirst, hx, List.filter_cons_of_pos hy, hxs]
    · rw [List.filter_cons_of_neg (by simp [hx])] at hv
      simp [replaceFirst, hx, List.filter_cons_of_neg, ih hv]

lemma filterLen_map (q : PC → Bool) (G : PC → PC) (hG : ∀ x, q (G x) = q x)
    (l : List PC) :
    ((l.map G).filter q).length = (l.filter q).length := by
  induction l with
  | nil => rfl
  | cons x xs ih =>
    by_cases hx : q x = true
    · rw [List.map_cons, List.filter_cons_of_pos (by rw [hG x]; exact hx),
        List.filter_cons_of_pos hx]
      simp [ih]
    · rw [List.map_cons, List.filter_cons_of_neg (by simp [hG x, hx]),
        List.filter_cons_of_neg (by simp [hx])]
      exact ih

lemma allClosed_closeCurrent (s : AppState)
    (h : ∀ pc ∈ s.pcs, pc.closed = false → s.pcRef = some pc.id) :
    ∀ pc ∈ (closeCurrent s).pcs, pc.closed = true := by
  cases hr : s.pcRef with
  | none =>
    intro pc hm
    rw [closeCurrent, hr] at hm
    by_contra hc
    have hcf : pc.closed = false := by
      cases hcl : pc.closed
      · rfl
      · exact absurd hcl hc
    have := h pc hm hcf
    rw [hr] at this
    exact Option.noConfusion this
  | some i =>
    intro pc hm
    rw [closeCurrent, hr] at hm
    simp only [List.mem_map] at hm
    obtain ⟨x, hx, hxe⟩ := hm
    by_cases hxi : x.id = i
    · rw [if_pos hxi] at hxe
      rw [← hxe]
    · rw [if_neg hxi] at hxe
      by_contra hc
      have hcf : pc.closed = false := by
        cases hcl : pc.closed
        · rfl
        · exact absurd hcl hc
      have hmem : pc ∈ s.pcs := hxe ▸ hx
      have h2 := h pc hmem hcf
      rw [hr] at h2
      have hpcid : pc.id = i := by
        have h3 : i = pc.id := by simpa using h2
        exact h3.symm
      exact hxi (by rw [hxe]; exact hpcid)

lemma liveAux (i : Nat) (l : List PC) (hn : (l.map PC.id).Nodup)
    (h : ∀ pc ∈ l, pc.closed = false → pc.id = i) :
    ((l.filter fun pc => !pc.closed).length ≤ 1) := by
  induction l with
  | nil => simp
  | cons x xs ih =>
    rw [List.map_cons, List.nodup_cons] at hn
    obtain ⟨hxn, hn'⟩ := hn
    cases hc : x.closed with
    | true =>
      rw [List.filter_cons_of_neg (by simp [hc])]
      exact ih hn' (fun pc hpc => h pc (by simp [hpc]))
    | false =>
      rw [List.filter_cons_of_pos (by simp [hc])]
      have hxs : xs.filter (fun pc => !pc.closed) = [] := by
        rw [List.filter_eq_nil_iff]
        intro pc hpc
        simp only [Bool.not_eq_true', Bool.not_eq_false]
        by_contra hb
        have hbf : pc.closed = false := by
          cases hcl : pc.closed
          · rfl
          · rw [hcl] at hb; simp at hb
        have h1 := h pc (by simp [hpc]) hbf
        have h2 := h x (by simp) hc
        exact hxn (h2 ▸ h1 ▸ List.mem_map_of_mem PC.id hpc)
      simp [hxs]

@[simp] lemma closeCurrent_nextId (s : AppState) :
    (closeCurrent s).nextId = s.nextId := by
  cases h : s.pcRef <;> simp [closeCurrent, h]

@[simp] lemma closeCurrent_tracks (s : AppState) :
    (closeCurrent s).tracks = s.tracks := by
  cases h : s.pcRef <;> simp [closeCurrent, h]

@[simp] lemma closeCurrent_emitted (s : AppState) :
    (closeCurrent s).emitted = s.emitted := by
  cases h : s.pcRef <;> simp [closeCurrent, h]

@[simp] lemma closeCurrent_pcRef (s : AppState) :
    (closeCurrent s).pcRef = s.pcRef := by
  cases h : s.pcRef <;> simp [closeCurrent, h]

@[simp] lemma closeCurrent_localStreamRef (s : AppState) :
    (closeCurrent s).localStreamRef = s.localStreamRef := by
  cases h : s.pcRef <;> simp [closeCurrent, h]

@[simp] lemma setLocalDescCur_emitted (d : SDP) (s : AppState) :
    (setLocalDescCur d s).emitted = s.emitted := by
  cases h : s.pcRef <;> simp [setLocalDescCur, h]

@[simp] lemma setLocalDescCur_tracks (d : SDP) (s : AppState) :
    (setLocalDescCur d s).tracks = s.tracks := by
  cases h : s.pcRef <;> simp [setLocalDescCur, h]

@[simp] lemma setLocalDescCur_nextId (d : SDP) (s : AppState) :
    (setLocalDescCur d s).nextId = s.nextId := by
  cases h : s.pcRef <;> simp [setLocalDescCur, h]

@[simp] lemma setLocalDescCur_pcRef (d : SDP) (s : AppState) :
    (setLocalDescCur d s).pcRef = s.pcRef := by
  cases h : s.pcRef <;> simp [setLocalDescCur, h]

@[simp] lemma setLocalDescCur_localStreamRef (d : SDP) (s : AppState) :
    (setLocalDescCur d s).localStreamRef = s.localStreamRef := by
  cases h : s.pcRef <;> simp [setLocalDescCur, h]

@[simp] lemma setRemoteDescCur_emitted (d : SDP) (s : AppState) :
    (setRemoteDescCur d s).emitted = s.emitted := by
  cases h : s.pcRef <;> simp [setRemoteDescCur, h]

@[simp] lemma setRemoteDescCur_tracks (d : SDP) (s : AppState) :
    (setRemoteDescCur d s).tracks = s.tracks := by
  cases h : s.pcRef <;> simp [setRemoteDescCur, h]

@[simp] lemma setRemoteDescCur_nextId (d : SDP) (s : AppState) :
    (setRemoteDescCur d s).nextId = s.nextId := by
  cases h : s.pcRef <;> simp [setRemoteDescCur, h]

@[simp] lemma setRemoteDescCur_pcRef (d : SDP) (s : AppState) :
    (setRemoteDescCur d s).pcRef = s.pcRef := by
  cases h : s.pcRef <;> simp [setRemoteDescCur, h]

@[simp] lemma setRemoteDescCur_localStreamRef (d : SDP) (s : AppState) :
    (setRemoteDescCur d s).localStreamRef = s.localStreamRef := by
  cases h : s.pcRef <;> simp [setRemoteDescCur, h]

lemma startCamera_some (s : AppState) (st : Stream)
    (h : s.localStreamRef = some st) : startCamera s = s := by
  simp [startCamera, h]

lemma reconnectCall_none (s : AppState) (h : s.localStreamRef = none) :
    reconnectCall s = s := by
  simp [reconnectCall, h]

lemma startCamera_isSome (s : AppState) :
    (startCamera s).localStreamRef.isSome = true := by
  cases h : s.localStreamRef <;> simp [startCamera, h]

lemma startCall_frame (s : AppState) :
    (startCall s).tracks = (startCamera s).tracks ∧
    (startCall s).localStreamRef = (startCamera s).localStreamRef := by
  constructor <;> simp [startCall, emitMsg, bumpId, createPeerConnection]

lemma wf_liveCount (s : AppState) (h : wfEngines s) : liveCount s ≤ 1 := by
  obtain ⟨hn, hl⟩ := h
  cases hr : s.pcRef with
  | some i =>
    refine liveAux i s.pcs hn ?_
    intro pc hm hc
    have h2 := hl pc hm hc
    rw [hr] at h2
    have h3 : i = pc.id := by simpa using h2
    exact h3.symm
  | none =>
    have hnil : s.pcs.filter (fun pc => !pc.closed) = [] := by
      rw [List.filter_eq_nil_iff]
      intro pc hm hb
      have hcf : pc.closed = false := by simpa using hb
      have h2 := hl pc hm hcf
      rw [hr] at h2
      exact Option.noConfusion h2
    rw [liveCount, hnil]
    simp

lemma liveCount_after_rebuild (l : List PC) (np : PC) (n : Nat) (f : PC → PC)
    (hall : ∀ pc ∈ l, pc.closed = true) (hnp : np.closed = false)
    (hf : ∀ x, (f x).closed = x.closed) :
    ((setPc n f (l ++ [np])).filter (fun pc => !pc.closed)).length = 1 := by
  have hG : ∀ x, (fun pc => !pc.closed) ((fun pc => if pc.id = n then f pc else pc) x) =
      (fun pc => !pc.closed) x := by
    intro x
    by_cases h : x.id = n <;> simp [h, hf]
  rw [setPc, filterLen_map _ _ hG, List.filter_append]
  have h1 : l.filter (fun pc => !pc.closed) = [] := by
    rw [List.filter_eq_nil_iff]
    intro pc hm
    simp [hall pc hm]
  rw [h1]
  simp [hnp]

lemma liveCount_after_rebuild2 (l : List PC) (np : PC) (n m : Nat) (f g : PC → PC)
    (hall : ∀ pc ∈ l, pc.closed = true) (hnp : np.closed = false)
    (hf : ∀ x, (f x).closed = x.closed) (hg : ∀ x, (g x).closed = x.closed) :
    ((setPc m g (setPc n f (l ++ [np]))).filter (fun pc => !pc.closed)).length = 1 := by
  have hG : ∀ x, (fun pc => !pc.closed) ((fun pc => if pc.id = m then g pc else pc) x) =
      (fun pc => !pc.closed) x := by
    intro x
    by_cases h : x.id = m <;> simp [h, hg]
  have h2 : ((setPc m g (setPc n f (l ++ [np]))).filter (fun pc => !pc.closed)).length =
      ((setPc n f (l ++ [np])).filter (fun pc => !pc.closed)).length := by
    rw [setPc, filterLen_map _ _ hG]
  rw [h2]
  exact liveCount_after_rebuild l np n f hall hnp hf

/-- C1 (amended): the reconnection path and the reconnect-offer handler
do preserve the at-most-one-live-engine invariant — they close the
currently referenced engine before creating the new one — provided every
live engine is the referenced one.  (As `c1_counterexample` shows, the
plain offer handler and `startCall` break the invariant, so the claim as
stated is false.) -/
theorem c1_amended (s : AppState) (o : SDP) (h : wfEngines s) :
    liveCount (reconnectCall s) ≤ 1 ∧ liveCount (onReconnectOffer o s) ≤ 1 := by
  have hall : ∀ pc ∈ (closeCurrent s).pcs, pc.closed = true :=
    allClosed_closeCurrent s h.2
  constructor
  · cases hls : s.localStreamRef with
    | none =>
      rw [reconnectCall_none s hls]
      exact wf_liveCount s h
    | some st =>
      simp only [reconnectCall, hls, liveCount, emitMsg, setLocalDescCur, bumpId,
        createPeerConnection, sdpOf]
      rw [liveCount_after_rebuild]
      · exact hall
      · rfl
      · intro x
        rfl
  · simp only [onReconnectOffer, liveCount, emitMsg, setLocalDescCur,
      setRemoteDescCur, bumpId, createPeerConnection, sdpOf]
    rw [liveCount_after_rebuild2]
    · exact hall
    · rfl
    · intro x
      rfl
    · intro x
      rfl

/-- C1 witness: the amended theorem applied at the state reached by
`startCall` from the initial state. -/
theorem c1_amended_witness :
    wfEngines (startCall initState) ∧
    liveCount (reconnectCall (startCall initState)) ≤ 1 := by
  have hwf : wfEngines (startCall initState) := ⟨by decide, by decide⟩
  exact ⟨hwf, (c1_amended (startCall initState) ⟨0, false⟩ hwf).1⟩

/-- C1 counterexample: after `startCall` followed by a received `offer`,
the session holds TWO live (non-closed) connection-engine instances —
the offer handler created a new engine without closing the previous
one. -/
theorem c1_counterexample :
    liveCount (List.foldl step initState [Ev.userStartCall, Ev.msgOffer ⟨100, false⟩]) = 2 := by
  decide

/-- C2 (amended): a single failed (or disconnected — both take the same
path) connection-state event while a local stream is held produces
exactly one outbound `reconnect-offer`, carrying an ICE-restart offer;
and a received `reconnect-answer` sets the remote description on the
currently referenced engine.  (The code holds no `iceRestartInFlight`
guard at all — `c2_counterexample` shows a second failure event before
any `reconnect-answer` produces a second `reconnect-offer` — and there
is no explicit Connected state to transition back to.) -/
theorem c2_amended (s : AppState) (a : SDP) (i : Nat) :
    (s.localStreamRef.isSome = true →
      (onConnectionStateChange ConnState.failed s).emitted =
        s.emitted ++ [Msg.reconnectOffer ⟨s.nextId + 1, true⟩])
    ∧ (s.pcRef = some i →
        ∀ pc ∈ (onReconnectAnswer a s).pcs, pc.id = i → pc.remoteDesc = some a)
    ∧ onConnectionStateChange ConnState.disconnected s =
        onConnectionStateChange ConnState.failed s := by
  refine ⟨?_, ?_, rfl⟩
  · intro h
    obtain ⟨st, hst⟩ := Option.isSome_iff_exists.mp h
    show (reconnectCall s).emitted = _
    simp [reconnectCall, hst, emitMsg, bumpId, createPeerConnection, sdpOf]
  · intro h pc hm hid
    simp only [onReconnectAnswer, setRemoteDescCur, h, setPc, List.mem_map] at hm
    obtain ⟨x, hx, hxe⟩ := hm
    by_cases hxi : x.id = i
    · rw [if_pos hxi] at hxe
      rw [← hxe]
    · rw [if_neg hxi] at hxe
      rw [← hxe] at hid
      exact absurd hid hxi

/-- C2 witness: the amended theorem applied at the state reached by
`startCall` from the initial state. -/
theorem c2_amended_witness :
    (startCall initState).localStreamRef.isSome = true ∧
    (onConnectionStateChange ConnState.failed (startCall initState)).emitted =
      (startCall initState).emitted ++
        [Msg.reconnectOffer ⟨(startCall initState).nextId + 1, true⟩] :=
  ⟨by decide, (c2_amended (startCall initState) ⟨0, false⟩ 0).1 (by decide)⟩

/-- C2 counterexample: two failed connection-state events with no
`reconnect-answer` in between produce TWO `reconnect-offer` messages —
no `iceRestartInFlight` guard limits the attempts to one in flight. -/
theorem c2_counterexample :
    ((onConnectionStateChange ConnState.failed
        (onConnectionStateChange ConnState.failed (startCall initState))).emitted.filter
          isReconnectOfferMsg).length = 2 ∧
    ((onConnectionStateChange ConnState.failed
        (onConnectionStateChange ConnState.failed (startCall initState))).emitted.filter
          isReconnectAnswerMsg).length = 0 := by
  decide

/-- C6 (confirmed): calling `startCall` a second time without an
intervening `endCall` causes no additional media acquisition — the
track store and the held local stream are exactly those after the first
call. -/
theorem c6_media_idempotent (s : AppState) :
    (startCall (startCall s)).tracks = (startCall s).tracks ∧
    (startCall (startCall s)).localStreamRef = (startCall s).localStreamRef := by
  have h0 := startCall_frame s
  have h1 := startCall_frame (startCall s)
  have hsome : (startCall s).localStreamRef.isSome = true := by
    rw [h0.2]
    exact startCamera_isSome s
  obtain ⟨st, hst⟩ := Option.isSome_iff_exists.mp hsome
  have h2 : startCamera (startCall s) = startCall s := startCamera_some _ st hst
  constructor
  · rw [h1.1, h2]
  · rw [h1.2, h2]

/-- C9 (confirmed): a disconnected/failed connection-state event
arriving when no local media stream is held leaves the whole session
state unchanged — `reconnectCall` returns before closing or creating
anything and before emitting any message. -/
theorem c9_reconnect_noop_without_stream (s : AppState) (st : ConnState)
    (h : s.localStreamRef = none) :
    onConnectionStateChange st s = s := by
  cases st
  all_goals simp only [onConnectionStateChange]
  all_goals exact reconnectCall_none s h

/-- C9 witness: the theorem applied at the initial state. -/
theorem c9_reconnect_noop_witness :
    initState.localStreamRef = none ∧
    onConnectionStateChange ConnState.failed initState = initState :=
  ⟨rfl, c9_reconnect_noop_without_stream initState ConnState.failed rfl⟩

/-- C10 (confirmed): `endCall` is total in every state — including when
no engine exists and no media was ever acquired — and always emits
exactly one `call-ended` message while clearing both references. -/
theorem c10_endCall_safe (s : AppState) :
    (endCall s).emitted = s.emitted ++ [Msg.callEnded] ∧
    (endCall s).pcRef = none ∧
    (endCall s).localStreamRef = none := by
  rcases hls : s.localStreamRef with _ | st <;>
    simp [endCall, emitMsg, hls]

lemma endCall_basic (s : AppState) :
    (endCall s).emitted = s.emitted ++ [Msg.callEnded] ∧
    (endCall s).pcRef = none ∧
    (endCall s).localStreamRef = none ∧
    (endCall s).localVideoSrc = none ∧
    (endCall s).remoteVideoSrc = none := by
  rcases hls : s.localStreamRef with _ | st <;>
    simp [endCall, emitMsg, hls]

/-- C3 (amended): `endCall` stops every held local track, closes the
referenced engine, clears all per-call state and emits exactly one
`call-ended`; after it, `answer`, `ice-candidate` and `reconnect-answer`
messages and failure events are ignored (no state change, no outbound
message).  (As `c3_counterexample` shows, an `offer` — and likewise a
`reconnect-offer` — received after `endCall` is NOT ignored: it creates
a new engine and emits a reply, so the claim as stated is false.) -/
theorem c3_amended (s : AppState) (a : SDP) (c : Nat) :
    (∀ st, s.localStreamRef = some st → ∀ tid ∈ st.trackIds, ∀ td,
        lookupTrack tid (endCall s).tracks = some td → td.stopped = true)
    ∧ (endCall s).emitted = s.emitted ++ [Msg.callEnded]
    ∧ (endCall s).pcRef = none
    ∧ (endCall s).localStreamRef = none
    ∧ (endCall s).localVideoSrc = none
    ∧ (endCall s).remoteVideoSrc = none
    ∧ (∀ pc ∈ (endCall s).pcs, s.pcRef = some pc.id → pc.closed = true)
    ∧ onAnswer a (endCall s) = endCall s
    ∧ onIceCandidate c (endCall s) = endCall s
    ∧ onReconnectAnswer a (endCall s) = endCall s
    ∧ onConnectionStateChange ConnState.failed (endCall s) = endCall s := by
  have hb := endCall_basic s
  refine ⟨?_, hb.1, hb.2.1, hb.2.2.1, hb.2.2.2.1, hb.2.2.2.2, ?_, ?_, ?_, ?_, ?_⟩
  · intro st hst tid htid td hlk
    have htr : (endCall s).tracks = stopTracks st.trackIds s.tracks := by
      simp [endCall, emitMsg, hst]
    rw [htr, lookupTrack_stopTracks] at hlk
    cases hl0 : lookupTrack tid s.tracks with
    | none =>
      rw [hl0] at hlk
      simp at hlk
    | some td0 =>
      rw [hl0] at hlk
      simp only [Option.map_some', if_pos htid, Option.some.injEq] at hlk
      rw [← hlk]
  · intro pc hm href
    rcases hr : s.pcRef with _ | i
    · rw [hr] at href
      exact Option.noConfusion href
    · rw [hr] at href
      have hid : pc.id = i := by
        have h3 : i = pc.id := by simpa using href
        exact h3.symm
      rcases hls : s.localStreamRef with _ | st <;>
        simp only [endCall, emitMsg, hls, closeCurrent, hr, List.mem_map] at hm <;>
        obtain ⟨x, hx, hxe⟩ := hm <;>
        by_cases hxi : x.id = i
      · rw [if_pos hxi] at hxe
        rw [← hxe]
      · rw [if_neg hxi] at hxe
        rw [← hxe] at hid
        exact absurd hid hxi
      · rw [if_pos hxi] at hxe
        rw [← hxe]
      · rw [if_neg hxi] at hxe
        rw [← hxe] at hid
        exact absurd hid hxi
  · simp [onAnswer, setRemoteDescCur, hb.2.1]
  · simp [onIceCandidate, hb.2.1]
  · simp [onReconnectAnswer, setRemoteDescCur, hb.2.1]
  · show reconnectCall (endCall s) = endCall s
    exact reconnectCall_none _ hb.2.2.1

/-- C3 witness: the amended theorem applied at the state reached by
`startCall`; track 0 of the held stream is stopped by `endCall` and one
`call-ended` is emitted. -/
theorem c3_amended_witness :
    (endCall (startCall initState)).emitted =
      (startCall initState).emitted ++ [Msg.callEnded] ∧
    (⟨Kind.audio, true, true, Source.camera⟩ : TrackData).stopped = true := by
  refine ⟨(c3_amended (startCall initState) ⟨0, false⟩ 0).2.1, ?_⟩
  exact (c3_amended (startCall initState) ⟨0, false⟩ 0).1 ⟨2, [0, 1]⟩ (by decide) 0
    (by decide) ⟨Kind.audio, true, true, Source.camera⟩ (by decide)

/-- C3 counterexample: an `offer` received after `endCall` is not
ignored — the handler emits an `answer` and installs a fresh engine
reference (it even reacquires media), contradicting the claim that all
subsequent signaling for the session is ignored. -/
theorem c3_counterexample :
    ((onOffer ⟨50, false⟩ (endCall (startCall initState))).emitted.filter
        isAnswerMsg).length = 1 ∧
    (onOffer ⟨50, false⟩ (endCall (startCall initState))).pcRef = some 8 := by
  decide

/-- C4 (amended): the remote `call-ended` handler closes the referenced
engine, clears the remote video binding, and emits no message at all;
but it does NOT release the local media: no local track is stopped and
the local stream reference is retained unchanged (so the claim's "all
owned resources released" part is false, see `c4_counterexample`). -/
theorem c4_amended (s : AppState) :
    (onCallEnded s).emitted = s.emitted
    ∧ (onCallEnded s).pcRef = none
    ∧ (onCallEnded s).remoteVideoSrc = none
    ∧ (onCallEnded s).tracks = s.tracks
    ∧ (onCallEnded s).localStreamRef = s.localStreamRef
    ∧ (∀ pc ∈ (onCallEnded s).pcs, s.pcRef = some pc.id → pc.closed = true) := by
  refine ⟨?_, rfl, rfl, ?_, ?_, ?_⟩
  · simp [onCallEnded]
  · simp [onCallEnded]
  · simp [onCallEnded]
  · intro pc hm href
    rcases hr : s.pcRef with _ | i
    · rw [hr] at href
      exact Option.noConfusion href
    · rw [hr] at href
      have hid : pc.id = i := by
        have h3 : i = pc.id := by simpa using href
        exact h3.symm
      simp only [onCallEnded, closeCurrent, hr, List.mem_map] at hm
      obtain ⟨x, hx, hxe⟩ := hm
      by_cases hxi : x.id = i
      · rw [if_pos hxi] at hxe
        rw [← hxe]
      · rw [if_neg hxi] at hxe
        rw [← hxe] at hid
        exact absurd hid hxi

/-- C4 witness: the amended theorem applied after `startCall`; nothing
is emitted and the previously referenced engine (id 3) ends up closed. -/
theorem c4_amended_witness :
    (onCallEnded (startCall initState)).emitted = (startCall initState).emitted ∧
    (⟨3, [0, 1], true, some ⟨4, false⟩, none, []⟩ : PC).closed = true := by
  refine ⟨(c4_amended (startCall initState)).1, ?_⟩
  exact (c4_amended (startCall initState)).2.2.2.2.2
    ⟨3, [0, 1], true, some ⟨4, false⟩, none, []⟩ (by decide) (by decide)

/-- C4 counterexample: after a remote `call-ended` the local stream
reference is still held and local track 0 is NOT stopped — the local
media resources are not released, contrary to the claim. -/
theorem c4_counterexample :
    (onCallEnded (startCall initState)).localStreamRef = some (camStreamOf 0) ∧
    lookupTrack 0 (onCallEnded (startCall initState)).tracks =
      some ⟨Kind.audio, true, false, Source.camera⟩ := by
  decide

/-- C7 (amended): a received remote ICE candidate is forwarded to the
referenced engine's `addIceCandidate` when a reference exists; when no
engine reference exists it is silently dropped — the state is left
completely unchanged, there is no buffering queue and no later flush
(see `c7_counterexample`). -/
theorem c7_amended (s : AppState) (c : Nat) (i : Nat) :
    (s.pcRef = none → onIceCandidate c s = s)
    ∧ (s.pcRef = some i →
        lookupPc i (onIceCandidate c s).pcs =
          (lookupPc i s.pcs).map
            (fun pc => { pc with candidates := pc.candidates ++ [c] })) := by
  constructor
  · intro h
    simp [onIceCandidate, h]
  · intro h
    simp only [onIceCandidate, h]
    exact lookupPc_setPc_self i _ s.pcs (fun pc => rfl)

/-- C7 witness: the theorem applied after `startCall` — the candidate
is appended to engine 3's candidate list. -/
theorem c7_amended_witness :
    (startCall initState).pcRef = some 3 ∧
    lookupPc 3 (onIceCandidate 42 (startCall initState)).pcs =
      (lookupPc 3 (startCall initState).pcs).map
        (fun pc => { pc with candidates := pc.candidates ++ [42] }) :=
  ⟨by decide, (c7_amended (startCall initState) 42 3).2 (by decide)⟩

/-- C7 counterexample: a candidate arriving before any engine exists
leaves the state literally unchanged (nothing is buffered), and after
the engine is later created and the remote description applied, its
candidate list is still empty — the candidate was silently dropped
while the session was not Ended, never flushed. -/
theorem c7_counterexample :
    onIceCandidate 7 initState = initState ∧
    lookupPc 3 (onOffer ⟨9, false⟩ (onIceCandidate 7 initState)).pcs =
      some ⟨3, [0, 1], false, some ⟨4, false⟩, some ⟨9, false⟩, []⟩ := by
  decide

lemma toggleAudio_frame (s : AppState) :
    (toggleAudio s).pcs = s.pcs ∧ (toggleAudio s).emitted = s.emitted ∧
    (toggleAudio s).pcRef = s.pcRef ∧
    (toggleAudio s).localStreamRef = s.localStreamRef ∧
    (toggleAudio s).nextId = s.nextId := by
  cases hls : s.localStreamRef with
  | none => simp [toggleAudio, hls]
  | some st =>
    cases hft : firstTrackOfKind s.tracks Kind.audio st.trackIds <;>
      simp [toggleAudio, hls, hft]

lemma toggleVideo_frame (s : AppState) :
    (toggleVideo s).pcs = s.pcs ∧ (toggleVideo s).emitted = s.emitted ∧
    (toggleVideo s).pcRef = s.pcRef ∧
    (toggleVideo s).localStreamRef = s.localStreamRef ∧
    (toggleVideo s).nextId = s.nextId := by
  cases hls : s.localStreamRef with
  | none => simp [toggleVideo, hls]
  | some st =>
    cases hft : firstTrackOfKind s.tracks Kind.video st.trackIds <;>
      simp [toggleVideo, hls, hft]

lemma toggleAudio_lookup (s : AppState) (tid : Nat) (td : TrackData)
    (h : lookupTrack tid s.tracks = some td) :
    lookupTrack tid (toggleAudio s).tracks =
      some (if heldTrack s Kind.audio = some tid
            then { td with enabled := !td.enabled } else td) := by
  cases hls : s.localStreamRef with
  | none => simp [toggleAudio, heldTrack, hls, h]
  | some st =>
    cases hft : firstTrackOfKind s.tracks Kind.audio st.trackIds with
    | none => simp [toggleAudio, heldTrack, hls, hft, h]
    | some t0 =>
      simp only [toggleAudio, heldTrack, hls, hft]
      rw [lookupTrack_setTrack, h, Option.map_some']
      by_cases ht : tid = t0
      · subst ht
        simp
      · rw [if_neg ht, if_neg (by simp only [Option.some.injEq]; exact fun h2 => ht h2.symm)]

lemma toggleVideo_lookup (s : AppState) (tid : Nat) (td : TrackData)
    (h : lookupTrack tid s.tracks = some td) :
    lookupTrack tid (toggleVideo s).tracks =
      some (if heldTrack s Kind.video = some tid
            then { td with enabled := !td.enabled } else td) := by
  cases hls : s.localStreamRef with
  | none => simp [toggleVideo, heldTrack, hls, h]
  | some st =>
    cases hft : firstTrackOfKind s.tracks Kind.video st.trackIds with
    | none => simp [toggleVideo, heldTrack, hls, hft, h]
    | some t0 =>
      simp only [toggleVideo, heldTrack, hls, hft]
      rw [lookupTrack_setTrack, h, Option.map_some']
      by_cases ht : tid = t0
      · subst ht
        simp
      · rw [if_neg ht, if_neg (by simp only [Option.some.injEq]; exact fun h2 => ht h2.symm)]

/-- C8 (confirmed): toggling a kind flips exactly the `enabled` flag of
the held track of that kind (every other track, and every other field
of that track, is unchanged), the engines — and hence the set and number
of attached sender tracks — are untouched, no message is emitted, and no
references change. -/
theorem c8_toggle (s : AppState) :
    (∀ tid td, lookupTrack tid s.tracks = some td →
      lookupTrack tid (toggleAudio s).tracks =
        some (if heldTrack s Kind.audio = some tid
              then { td with enabled := !td.enabled } else td))
    ∧ (∀ tid td, lookupTrack tid s.tracks = some td →
      lookupTrack tid (toggleVideo s).tracks =
        some (if heldTrack s Kind.video = some tid
              then { td with enabled := !td.enabled } else td))
    ∧ (toggleAudio s).pcs = s.pcs ∧ (toggleAudio s).emitted = s.emitted
    ∧ (toggleAudio s).pcRef = s.pcRef
    ∧ (toggleAudio s).localStreamRef = s.localStreamRef
    ∧ (toggleAudio s).nextId = s.nextId
    ∧ (toggleVideo s).pcs = s.pcs ∧ (toggleVideo s).emitted = s.emitted
    ∧ (toggleVideo s).pcRef = s.pcRef
    ∧ (toggleVideo s).localStreamRef = s.localStreamRef
    ∧ (toggleVideo s).nextId = s.nextId := by
  have ha := toggleAudio_frame s
  have hv := toggleVideo_frame s
  exact ⟨fun tid td h => toggleAudio_lookup s tid td h,
    fun tid td h => toggleVideo_lookup s tid td h,
    ha.1, ha.2.1, ha.2.2.1, ha.2.2.2.1, ha.2.2.2.2,
    hv.1, hv.2.1, hv.2.2.1, hv.2.2.2.1, hv.2.2.2.2⟩

/-- C8 witness: after `startCall`, toggling audio flips the held audio
track's `enabled` flag to false (its other fields untouched). -/
theorem c8_toggle_witness :
    lookupTrack 0 (toggleAudio (startCall initState)).tracks =
      some ⟨Kind.audio, false, false, Source.camera⟩ := by
  have h := (c8_toggle (startCall initState)).1 0
    ⟨Kind.audio, true, false, Source.camera⟩ (by decide)
  rw [h]
  decide

lemma startScreenShare_facts (s : AppState) (i : Nat) (href : s.pcRef = some i) :
    (startScreenShare s).tracks = s.tracks ++ [(s.nextId, screenTD)] ∧
    (startScreenShare s).pcRef = some i ∧
    (startScreenShare s).nextId = s.nextId + 2 ∧
    (startScreenShare s).pcs =
      setPc i
        (fun q =>
          { q with
            senders := replaceFirst (isVideoTrack (s.tracks ++ [(s.nextId, screenTD)]))
                         s.nextId q.senders })
        s.pcs := by
  refine ⟨?_, ?_, ?_, ?_⟩ <;> simp [startScreenShare, getDisplayMedia, href]

lemma stopScreenShare_facts (s : AppState) (i : Nat) (href : s.pcRef = some i) :
    (stopScreenShare s).tracks =
      s.tracks ++ [(s.nextId, camAudioTD), (s.nextId + 1, camVideoTD)] ∧
    (stopScreenShare s).pcs =
      setPc i
        (fun q =>
          { q with
            senders := replaceFirst
                         (isVideoTrack
                           (s.tracks ++ [(s.nextId, camAudioTD), (s.nextId + 1, camVideoTD)]))
                         (s.nextId + 1) q.senders })
        s.pcs := by
  refine ⟨?_, ?_⟩ <;> simp [stopScreenShare, getUserMedia, href]

/-- C5 (amended): for a session whose referenced engine carries exactly
one outbound video sender (all of its senders carrying known tracks),
`startScreenShare()` followed by `stopScreenShare()` leaves exactly one
outbound video track attached, and that track is the freshly acquired
camera video track; the screen track, however, is left NOT stopped —
`stopScreenShare` merely detaches it from the sender and never releases
its device (so the claim's "leaves the screen track stopped" part is
false, see `c5_counterexample`). -/
theorem c5_amended (s : AppState) (i v : Nat) (pc : PC)
    (href : s.pcRef = some i)
    (hpc : lookupPc i s.pcs = some pc)
    (hvs : videoSenders s.tracks pc.senders = [v])
    (hdom : ∀ tid ∈ pc.senders, (lookupTrack tid s.tracks).isSome = true)
    (hfresh : ∀ p ∈ s.tracks, p.1 < s.nextId) :
    ∃ pc2,
      lookupPc i (stopScreenShare (startScreenShare s)).pcs = some pc2 ∧
      videoSenders (stopScreenShare (startScreenShare s)).tracks pc2.senders =
        [s.nextId + 3] ∧
      lookupTrack (s.nextId + 3) (stopScreenShare (startScreenShare s)).tracks =
        some ⟨Kind.video, true, false, Source.camera⟩ ∧
      lookupTrack s.nextId (stopScreenShare (startScreenShare s)).tracks =
        some ⟨Kind.video, true, false, Source.screen⟩ := by
  obtain ⟨hA, hC, hD, hB⟩ := startScreenShare_facts s i href
  obtain ⟨hE, hF⟩ := stopScreenShare_facts (startScreenShare s) i hC
  rw [hA, hD] at hE hF
  have e1 : s.nextId + 2 + 1 = s.nextId + 3 := by omega
  rw [e1] at hE hF
  rw [hB] at hF
  have hfresh1 : ∀ p ∈ s.tracks ++ [(s.nextId, screenTD)], p.1 < s.nextId + 1 := by
    intro p hp
    rcases List.mem_append.mp hp with h | h
    · exact Nat.lt_trans (hfresh p h) (Nat.lt_succ_self _)
    · simp only [List.mem_singleton] at h
      rw [h]
      exact Nat.lt_succ_self _
  have hlscr1 : lookupTrack s.nextId (s.tracks ++ [(s.nextId, screenTD)]) =
      some screenTD := by
    rw [lookupTrack_append_none _ _ _
      (lookupTrack_none_of_lt _ _ _ hfresh (Nat.le_refl _))]
    simp [lookupTrack]
  have hlscrF : lookupTrack s.nextId
      ((s.tracks ++ [(s.nextId, screenTD)]) ++
        [(s.nextId + 2, camAudioTD), (s.nextId + 3, camVideoTD)]) = some screenTD :=
    lookupTrack_append_some _ _ _ _ hlscr1
  have hlcamF : lookupTrack (s.nextId + 3)
      ((s.tracks ++ [(s.nextId, screenTD)]) ++
        [(s.nextId + 2, camAudioTD), (s.nextId + 3, camVideoTD)]) = some camVideoTD := by
    rw [lookupTrack_append_none _ _ _
      (lookupTrack_none_of_lt _ (s.nextId + 1) _ hfresh1 (by omega))]
    rw [lookupTrack, if_neg (by omega), lookupTrack, if_pos rfl]
  have hstable1 : ∀ x ∈ pc.senders,
      isVideoTrack (s.tracks ++ [(s.nextId, screenTD)]) x =
        isVideoTrack s.tracks x := by
    intro x hx
    obtain ⟨td, htd⟩ := Option.isSome_iff_exists.mp (hdom x hx)
    have h2 : lookupTrack x (s.tracks ++ [(s.nextId, screenTD)]) = some td :=
      lookupTrack_append_some _ _ _ _ htd
    simp only [isVideoTrack]
    rw [htd, h2]
  have hstable2 : ∀ x ∈ pc.senders,
      isVideoTrack ((s.tracks ++ [(s.nextId, screenTD)]) ++
        [(s.nextId + 2, camAudioTD), (s.nextId + 3, camVideoTD)]) x =
        isVideoTrack s.tracks x := by
    intro x hx
    obtain ⟨td, htd⟩ := Option.isSome_iff_exists.mp (hdom x hx)
    have h2 : lookupTrack x ((s.tracks ++ [(s.nextId, screenTD)]) ++
        [(s.nextId + 2, camAudioTD), (s.nextId + 3, camVideoTD)]) = some td :=
      lookupTrack_append_some _ _ _ _ (lookupTrack_append_some _ _ _ _ htd)
    simp only [isVideoTrack]
    rw [htd, h2]
  have hvs2 : pc.senders.filter (isVideoTrack s.tracks) = [v] := by
    simpa only [videoSenders] using hvs
  have hfil0 : pc.senders.filter
      (isVideoTrack ((s.tracks ++ [(s.nextId, screenTD)]) ++
        [(s.nextId + 2, camAudioTD), (s.nextId + 3, camVideoTD)])) = [v] := by
    rw [filter_congr_mem _ _ _ hstable2]
    exact hvs2
  have hconv : replaceFirst (isVideoTrack (s.tracks ++ [(s.nextId, screenTD)]))
      s.nextId pc.senders =
      replaceFirst (isVideoTrack ((s.tracks ++ [(s.nextId, screenTD)]) ++
        [(s.nextId + 2, camAudioTD), (s.nextId + 3, camVideoTD)])) s.nextId pc.senders := by
    apply replaceFirst_congr
    intro x hx
    rw [hstable1 x hx, hstable2 x hx]
  have hpscr : isVideoTrack ((s.tracks ++ [(s.nextId, screenTD)]) ++
      [(s.nextId + 2, camAudioTD), (s.nextId + 3, camVideoTD)]) s.nextId = true := by
    simp only [isVideoTrack]
    rw [hlscrF]
    rfl
  have hpcam : isVideoTrack ((s.tracks ++ [(s.nextId, screenTD)]) ++
      [(s.nextId + 2, camAudioTD), (s.nextId + 3, camVideoTD)]) (s.nextId + 3) = true := by
    simp only [isVideoTrack]
    rw [hlcamF]
    rfl
  have hfil1 : (replaceFirst (isVideoTrack ((s.tracks ++ [(s.nextId, screenTD)]) ++
      [(s.nextId + 2, camAudioTD), (s.nextId + 3, camVideoTD)])) s.nextId
        pc.senders).filter
      (isVideoTrack ((s.tracks ++ [(s.nextId, screenTD)]) ++
        [(s.nextId + 2, camAudioTD), (s.nextId + 3, camVideoTD)])) = [s.nextId] :=
    replaceFirst_filter _ _ v _ hfil0 hpscr
  have hfil2 : (replaceFirst (isVideoTrack ((s.tracks ++ [(s.nextId, screenTD)]) ++
      [(s.nextId + 2, camAudioTD), (s.nextId + 3, camVideoTD)])) (s.nextId + 3)
        (replaceFirst (isVideoTrack ((s.tracks ++ [(s.nextId, screenTD)]) ++
          [(s.nextId + 2, camAudioTD), (s.nextId + 3, camVideoTD)])) s.nextId
          pc.senders)).filter
      (isVideoTrack ((s.tracks ++ [(s.nextId, screenTD)]) ++
        [(s.nextId + 2, camAudioTD), (s.nextId + 3, camVideoTD)])) = [s.nextId + 3] :=
    replaceFirst_filter _ _ s.nextId _ hfil1 hpcam
  have hlp1 : lookupPc i (startScreenShare s).pcs =
      some
        { pc with
          senders := replaceFirst (isVideoTrack (s.tracks ++ [(s.nextId, screenTD)]))
                       s.nextId pc.senders } := by
    have h2 := lookupPc_setPc_self i
      (fun q =>
        { q with
          senders := replaceFirst (isVideoTrack (s.tracks ++ [(s.nextId, screenTD)]))
                       s.nextId q.senders })
      s.pcs (fun q => rfl)
    rw [hB, h2, hpc]
    rfl
  have hlp2 : lookupPc i (stopScreenShare (startScreenShare s)).pcs =
      some
        { pc with
          senders := replaceFirst
                       (isVideoTrack ((s.tracks ++ [(s.nextId, screenTD)]) ++
                         [(s.nextId + 2, camAudioTD), (s.nextId + 3, camVideoTD)]))
                       (s.nextId + 3)
                       (replaceFirst (isVideoTrack (s.tracks ++ [(s.nextId, screenTD)]))
                         s.nextId pc.senders) } := by
    have h2 := lookupPc_setPc_self i
      (fun q =>
        { q with
          senders := replaceFirst
                       (isVideoTrack
                         (s.tracks ++ [(s.nextId, screenTD)] ++
                           [(s.nextId + 2, camAudioTD), (s.nextId + 3, camVideoTD)]))
                       (s.nextId + 3) q.senders })
      (setPc i
        (fun q =>
          { q with
            senders := replaceFirst (isVideoTrack (s.tracks ++ [(s.nextId, screenTD)]))
                         s.nextId q.senders })
        s.pcs)
      (fun q => rfl)
    rw [hF, h2, ← hB, hlp1]
    rfl
  refine ⟨_, hlp2, ?_, ?_, ?_⟩
  · rw [hE]
    simp only [videoSenders]
    show (replaceFirst _ (s.nextId + 3)
        (replaceFirst (isVideoTrack (s.tracks ++ [(s.nextId, screenTD)]))
          s.nextId pc.senders)).filter _ = [s.nextId + 3]
    rw [hconv]
    exact hfil2
  · rw [hE]
    exact hlcamF
  · rw [hE]
    exact hlscrF

/-- C5 witness: the amended theorem applied after `startCall` (engine 3,
whose single video sender carries track 1). -/
theorem c5_amended_witness :
    ∃ pc2,
      lookupPc 3 (stopScreenShare (startScreenShare (startCall initState))).pcs =
        some pc2 ∧
      videoSenders (stopScreenShare (startScreenShare (startCall initState))).tracks
        pc2.senders = [(startCall initState).nextId + 3] ∧
      lookupTrack ((startCall initState).nextId + 3)
        (stopScreenShare (startScreenShare (startCall initState))).tracks =
        some ⟨Kind.video, true, false, Source.camera⟩ ∧
      lookupTrack (startCall initState).nextId
        (stopScreenShare (startScreenShare (startCall initState))).tracks =
        some ⟨Kind.video, true, false, Source.screen⟩ :=
  c5_amended (startCall initState) 3 1 ⟨3, [0, 1], false, some ⟨4, false⟩, none, []⟩
    (by decide) (by decide) (by decide) (by decide) (by decide)

/-- C5 counterexample: after `startCall`, `startScreenShare` then
`stopScreenShare`, the screen track (id 5) is still NOT stopped — its
device was never released, contrary to the claim. -/
theorem c5_counterexample :
    lookupTrack 5 (stopScreenShare (startScreenShare (startCall initState))).tracks =
      some ⟨Kind.video, true, false, Source.screen⟩ := by
  decide

end WebRTC
